import Mathlib

/-!
Verification development for the MBTA Red Line tracker's response-normalization
layer (`api/parsers.py`): the Time Normalizer (`_parse_iso`), Status Deriver
(`_derive_status`), Record Flatteners (`parse_alerts`, `parse_departures`,
`_parse_arrivals_raw`, `parse_near_term_arrivals`, `parse_future_arrivals`,
`parse_vehicles_for_map`, shape decoding) and the Vehicle-Next-Stop Merger
(`_next_stop_by_vehicle`).

Modelling conventions:
* Absolute instants are integers counting microseconds since the Unix epoch
  (Python `datetime` has microsecond resolution; `timedelta.total_seconds()`
  is the microsecond count divided by 10^6).
* Python exceptions that escape a function are modelled by the `Res` monad:
  `Res.err` is an uncaught exception (`ValueError` from
  `datetime.fromisoformat` / `float`, `AttributeError` from a dangling
  `included` reference), `Res.ok` a normal return.
* A JSON timestamp field, as consumed by `_parse_iso`, is modelled by `TStr`:
  absent (`None`), the empty string, a malformed string, a well-formed string
  with an explicit UTC offset (`Z` is `+00:00`), or a well-formed naive
  string carrying a civil wall-clock datetime.
* JSON:API dicts are modelled by structures holding exactly the fields the
  parsers read; `dict.get` of a missing key is `Option.none`.
-/

/-- Result of running a Python function that may raise: `ok` is a normal
return, `err` an uncaught exception propagating to the caller. -/
inductive Res (α : Type) where
  | ok (a : α)
  | err
  deriving DecidableEq

/-- Sequencing of possibly-raising computations: an exception short-circuits. -/
def Res.bind {α β : Type} (r : Res α) (f : α → Res β) : Res β :=
  match r with
  | .ok a => f a
  | .err => .err

instance : Monad Res where
  pure := Res.ok
  bind := Res.bind

/-- Civil wall-clock datetime, the result of `datetime.fromisoformat` on a
well-formed naive ISO string (no `tzinfo`). -/
structure NaiveDT where
  year : Nat
  month : Nat
  day : Nat
  hour : Nat
  minute : Nat
  second : Nat
  usec : Nat
  deriving DecidableEq

/-- Days from 1970-01-01 to the civil date y-m-d (proleptic Gregorian),
the standard era-based civil-from-days inverse used by `datetime.date`. -/
def daysFromCivil (y m d : Nat) : Int :=
  let yy := if m ≤ 2 then y - 1 else y
  let era := yy / 400
  let yoe := yy % 400
  let mp := if m ≤ 2 then m + 9 else m - 3
  let doy := (153 * mp + 2) / 5 + d - 1
  let doe := yoe * 365 + yoe / 4 - yoe / 100 + doy
  (era * 146097 + doe : Int) - 719468

/-- Microseconds from the Unix epoch to a naive datetime read as UTC. -/
def NaiveDT.toEpochUs (dt : NaiveDT) : Int :=
  daysFromCivil dt.year dt.month dt.day * 86400000000 +
    (dt.hour * 3600000000 + dt.minute * 60000000 + dt.second * 1000000 + dt.usec : Nat)

/-- Day of week of a civil date, Sunday = 0 (1970-01-01 was a Thursday). -/
def dayOfWeek (y m d : Nat) : Nat :=
  ((daysFromCivil y m d + 4) % 7).toNat

/-- Day-of-month of the first Sunday of month m falling on or after day d0. -/
def firstSundayOnOrAfter (y m d0 : Nat) : Nat :=
  d0 + (7 - dayOfWeek y m d0) % 7

/-- Model of `zoneinfo.ZoneInfo("America/New_York")` applied to a naive
wall-clock datetime (`MBTA_TZ` in the source): the UTC offset in
microseconds, -4h during daylight time and -5h otherwise, with daylight
time running from the second Sunday of March (first existing wall instant
03:00) to the first Sunday of November (wall 02:00), the post-2007 US rule;
`fold=0` disambiguation on the transition hours. The tz database is an
external collaborator of the source; this is its model. -/
def nyOffsetUs (dt : NaiveDT) : Int :=
  let w := dt.toEpochUs
  let spring := (⟨dt.year, 3, firstSundayOnOrAfter dt.year 3 8, 3, 0, 0, 0⟩ : NaiveDT).toEpochUs
  let fall := (⟨dt.year, 11, firstSundayOnOrAfter dt.year 11 1, 2, 0, 0, 0⟩ : NaiveDT).toEpochUs
  if spring ≤ w ∧ w < fall then -14400000000 else -18000000000

/-- A timestamp-string field as consumed by `_parse_iso`; constructors
classify the inputs by how `datetime.fromisoformat` treats them after the
source's `s.replace("Z", "+00:00")`:
* `null` is Python `None` (or a missing key),
* `empty` the empty string (falsy, like `None`),
* `malformed` a string on which `fromisoformat` raises `ValueError`,
* `aware wall offset` a well-formed string with explicit UTC offset,
  carried as the wall-clock microseconds `wall` (read as if UTC) and the
  offset in microseconds (`Z` becomes offset 0),
* `naive dt` a well-formed string with no offset. -/
inductive TStr where
  | null
  | empty
  | malformed
  | aware (wall offset : Int)
  | naive (dt : NaiveDT)
  deriving DecidableEq

/-- Python truthiness of the timestamp field (`None` and `""` are falsy,
every other string truthy). -/
def tTruthy : TStr → Bool
  | .null => false
  | .empty => false
  | _ => true

/-- Python `a or b` on two timestamp fields (first truthy wins). -/
def tstrOr (a b : TStr) : TStr :=
  if tTruthy a then a else b

/-- Source `_parse_iso`: `None`/empty returns `None`; a malformed string
raises `ValueError` out of `datetime.fromisoformat`; an offset-bearing
string is converted to UTC (`astimezone(timezone.utc)`, i.e. wall minus
offset); a naive string is localized to `America/New_York`
(`replace(tzinfo=ZoneInfo(MBTA_TZ))`) and then converted to UTC. -/
def _parse_iso : TStr → Res (Option Int)
  | .null => .ok none
  | .empty => .ok none
  | .malformed => .err
  | .aware wall offset => .ok (some (wall - offset))
  | .naive dt => .ok (some (dt.toEpochUs - nyOffsetUs dt))

/-- Source `_derive_status`: no prediction is `"Cancelled"`; no schedule is
`"On Time"`; otherwise the prediction-minus-schedule delta (microseconds)
is compared against `threshold_minutes * 60` seconds. -/
def _derive_status (scheduled_dt predicted_dt : Option Int) (threshold_minutes : Int) : String :=
  match predicted_dt with
  | none => "Cancelled"
  | some p =>
    match scheduled_dt with
    | none => "On Time"
    | some s => if p - s ≤ threshold_minutes * 60 * 1000000 then "On Time" else "Delayed"

/-- Association-list lookup by key (model of Python `dict.get`). -/
def lookupA {κ α : Type} [DecidableEq κ] : List (κ × α) → κ → Option α
  | [], _ => none
  | (k, v) :: rest, key => if k = key then some v else lookupA rest key

/-- Association-list write `d[k] = v` (model of Python dict assignment:
replace in place if the key exists, else append; last write wins). -/
def updA {κ α : Type} [DecidableEq κ] : List (κ × α) → κ → α → List (κ × α)
  | [], k, v => [(k, v)]
  | (k0, v0) :: rest, k, v =>
    if k0 = k then (k0, v) :: rest else (k0, v0) :: updA rest k v

/-- Attributes of an `included` JSON:API resource, holding exactly the keys
the parsers read (schedule times, trip headsign, stop name); a missing key
reads as `None`/null. -/
structure IncAttrs where
  arrival_time : TStr
  departure_time : TStr
  arrival : TStr
  departure : TStr
  headsign : Option String
  name : Option String
  deriving DecidableEq

/-- The empty attributes dict `{}`. -/
def IncAttrs.empty : IncAttrs :=
  ⟨.null, .null, .null, .null, none, none⟩

/-- One resource of a payload's `included` array. -/
structure Inc where
  rtype : String
  id : String
  attributes : IncAttrs
  deriving DecidableEq

/-- Source `_build_included_lookup`: fold the `included` array into a
`(type, id)`-keyed lookup table, last write winning on duplicates. -/
def _build_included_lookup (included_list : List Inc) : List ((String × String) × Inc) :=
  included_list.foldl (fun d inc => updA d (inc.rtype, inc.id) inc) []

/-- Model of `included.get((ty, id)) if id else {}` followed by
`.get("attributes", {})` as the prediction parsers perform it: no reference
gives empty attributes, but a reference whose target is missing from
`included` leaves `schedule = None` and the subsequent
`schedule.get("attributes", {})` raises `AttributeError`. -/
def resolveAttrs (lk : List ((String × String) × Inc)) (ty : String) :
    Option String → Res IncAttrs
  | none => .ok IncAttrs.empty
  | some i =>
    match lookupA lk (ty, i) with
    | some inc => .ok inc.attributes
    | none => .err

/-- Python `a or b` on optional values whose truthy forms are always
truthy objects (datetimes, ids): first non-`None` wins. -/
def orO {α : Type} (a b : Option α) : Option α :=
  match a with
  | some _ => a
  | none => b

/-- Attributes of one prediction resource. `direction_id` is carried after
the source's digit-string coercion (an `int` or `None`); the relationship
fields carry the id reached by `(rels.get(r) or {}).get("data")` followed
by `.get("id")`, collapsed to `None` when any link in that chain is
absent or not a dict. -/
structure PredAttrs where
  direction_id : Option Int
  arrival_time : TStr
  departure_time : TStr
  deriving DecidableEq

/-- Relationship references of one prediction resource (see `PredAttrs`). -/
structure PredRels where
  schedule : Option String
  trip : Option String
  vehicle : Option String
  stop : Option String
  deriving DecidableEq

/-- One resource of a predictions payload's `data` array. -/
structure PredItem where
  attributes : PredAttrs
  relationships : PredRels
  deriving DecidableEq

/-- A predictions API response: the fetch layer's `error` flag (truthy on
fetch failure) plus the JSON:API `data` and `included` arrays. -/
structure PredPayload where
  error : Bool
  data : List PredItem
  included : List Inc
  deriving DecidableEq

/-- The included-lookup of a predictions payload. -/
def lkOf (p : PredPayload) : List ((String × String) × Inc) :=
  _build_included_lookup p.included

/-- Error-propagating map over a list (Python `for` loop building a row
list, where an uncaught exception in an iteration aborts the whole call). -/
def mapME {α β : Type} (f : α → Res β) : List α → Res (List β)
  | [] => .ok []
  | x :: xs =>
    match f x with
    | .err => .err
    | .ok y =>
      match mapME f xs with
      | .err => .err
      | .ok ys => .ok (y :: ys)

/-- One departures row before the sort column is dropped. -/
structure DepRowS where
  destination : String
  scheduled_departure : Option Int
  actual_departure : Option Int
  status : String
  sort_time : Option Int
  deriving DecidableEq

/-- One row of the departures table. -/
structure DepRow where
  destination : String
  scheduled_departure : Option Int
  actual_departure : Option Int
  status : String
  deriving DecidableEq

/-- One iteration of the `parse_departures` loop: parse the predicted
departure and arrival, resolve schedule and trip, parse the scheduled
departure (all before the direction test, as in the source), and emit a row
only for `direction_id == 0` with at least one of the three time strings
truthy. -/
def depRow (lk : List ((String × String) × Inc)) (it : PredItem) : Res (Option DepRowS) := do
  let a := it.attributes
  let pred_dep_dt ← _parse_iso a.departure_time
  let pred_arr_dt ← _parse_iso a.arrival_time
  let sched_attrs ← resolveAttrs lk "schedule" it.relationships.schedule
  let trip_attrs ← resolveAttrs lk "trip" it.relationships.trip
  let destination := trip_attrs.headsign.getD ""
  let sched_dep := tstrOr sched_attrs.departure_time sched_attrs.departure
  let sched_dep_dt ← _parse_iso sched_dep
  if a.direction_id = some 0 ∧
      (tTruthy a.departure_time ∨ tTruthy sched_dep ∨ tTruthy a.arrival_time) then
    return some ⟨destination, sched_dep_dt, orO pred_dep_dt pred_arr_dt,
      _derive_status sched_dep_dt (orO pred_dep_dt pred_arr_dt) 2,
      orO pred_dep_dt (orO pred_arr_dt sched_dep_dt)⟩
  else
    return none

/-- Sort key order of `sort_values(ascending=True, na_position="last")`:
ascending on present instants, null keys after every key. -/
def oleKey : Option Int → Option Int → Bool
  | none, none => true
  | none, some _ => false
  | some _, none => true
  | some x, some y => decide (x ≤ y)

/-- Insert a row after all rows whose key is `oleKey`-below-or-equal. -/
def insertDep (r : DepRowS) : List DepRowS → List DepRowS
  | [] => [r]
  | x :: xs =>
    if oleKey x.sort_time r.sort_time then x :: insertDep r xs else r :: x :: xs

/-- Representative of the source's
`df.sort_values(by="_sort_time", ascending=True, na_position="last")`:
rows ascending by sort time, null-keyed rows last. The pandas call uses the
default `kind="quicksort"`, which pandas does not document as stable; this
embedding is an insertion sort (stable), which realizes one conforming
outcome but is not relied on for any tie-order conclusion. -/
def sortDep (rows : List DepRowS) : List DepRowS :=
  rows.foldl (fun acc r => insertDep r acc) []

/-- Source `parse_departures`: error-flagged input gives the empty frame;
otherwise flatten each prediction (any uncaught exception aborts the call),
sort by best-available departure instant and drop the sort column. -/
def parse_departures (pr : PredPayload) : Res (List DepRow) :=
  if pr.error then .ok [] else
    (mapME (depRow (lkOf pr)) pr.data).bind fun rows =>
      .ok ((sortDep rows.reduceOption).map fun r =>
        ⟨r.destination, r.scheduled_departure, r.actual_departure, r.status⟩)

/-- One element of an alert's `active_period` array. -/
structure APeriod where
  start : TStr
  end_ : TStr
  deriving DecidableEq

/-- Attributes of one alert resource. -/
structure AlertAttrs where
  severity : Option Int
  description : Option String
  short_header : Option String
  header : Option String
  active_period : List APeriod
  deriving DecidableEq

/-- One resource of an alerts payload's `data` array. -/
structure AlertItem where
  attributes : AlertAttrs
  deriving DecidableEq

/-- An alerts API response. -/
structure AlertPayload where
  error : Bool
  data : List AlertItem
  deriving DecidableEq

/-- One row of the Service Alerts table. -/
structure AlertRow where
  severity : String
  description : String
  start_time : Option Int
  end_time : Option Int
  status : String
  deriving DecidableEq

/-- Source `SEVERITY_MAP.get(v, str(v) if v is not None else "Unknown")`. -/
def sevLabel : Option Int → String
  | some 1 => "Information"
  | some 2 => "Warning"
  | some 3 => "Emergency"
  | some n => toString n
  | none => "Unknown"

/-- Python `a or b` on optional strings, where the empty string is falsy. -/
def pyOrS (a b : Option String) : Option String :=
  match a with
  | some s => if s = "" then b else some s
  | none => b

/-- One iteration of the `parse_alerts` loop. Status is computed from the
first `active_period` element only; `start_time and (end_time is None or
now < end_time) and now >= start_time` decides `"Active"` (datetimes are
always truthy, so `start_time and` tests non-`None`); `if start_str:` /
`if end_str:` guards are folded into `_parse_iso`, which returns `None` on
falsy input. The description is the first truthy of
description/short_header/header, else `""`, truncated to 200 characters. -/
def alertRow (now : Int) (it : AlertItem) : Res AlertRow := do
  let a := it.attributes
  let sl := sevLabel a.severity
  let descr := ((pyOrS a.description (pyOrS a.short_header (pyOrS a.header (some "")))).getD "").take 200
  match a.active_period with
  | [] => return ⟨sl, descr, none, none, "Inactive"⟩
  | first :: _ => do
    let start_time ← _parse_iso first.start
    let end_time ← _parse_iso first.end_
    let active := match start_time with
      | none => false
      | some s =>
        (match end_time with | none => true | some e => decide (now < e)) && decide (now ≥ s)
    return ⟨sl, descr, start_time, end_time, if active then "Active" else "Inactive"⟩

/-- Source `parse_alerts`: error-flagged input gives the empty frame, else
one row per alert (`datetime.now(timezone.utc)` is the `now` argument). -/
def parse_alerts (now : Int) (ap : AlertPayload) : Res (List AlertRow) :=
  if ap.error then .ok [] else mapME (alertRow now) ap.data

/-- One row of the internal arrivals frame (`_parse_arrivals_raw`). -/
structure ArrRawRow where
  vehicle_id : Option String
  scheduled_arrival : Option Int
  actual_arrival : Option Int
  status : String
  arrival_time_dt : Option Int
  deriving DecidableEq

/-- One iteration of the `_parse_arrivals_raw` loop: mirror of `depRow` for
`direction_id == 1`, keeping the originating vehicle id and the
best-available arrival instant `pred_arr_dt or sched_arr_dt or pred_dep_dt`. -/
def arrRow (lk : List ((String × String) × Inc)) (it : PredItem) : Res (Option ArrRawRow) := do
  let a := it.attributes
  let pred_arr_dt ← _parse_iso a.arrival_time
  let pred_dep_dt ← _parse_iso a.departure_time
  let sched_attrs ← resolveAttrs lk "schedule" it.relationships.schedule
  let sched_arr := tstrOr sched_attrs.arrival_time sched_attrs.arrival
  let sched_arr_dt ← _parse_iso sched_arr
  if a.direction_id = some 1 ∧
      (tTruthy a.arrival_time ∨ tTruthy sched_arr ∨ tTruthy a.departure_time) then
    return some ⟨it.relationships.vehicle, sched_arr_dt, orO pred_arr_dt pred_dep_dt,
      _derive_status sched_arr_dt (orO pred_arr_dt pred_dep_dt) 2,
      orO pred_arr_dt (orO sched_arr_dt pred_dep_dt)⟩
  else
    return none

/-- Source `_parse_arrivals_raw`. -/
def _parse_arrivals_raw (pr : PredPayload) : Res (List ArrRawRow) :=
  if pr.error then .ok [] else
    (mapME (arrRow (lkOf pr)) pr.data).bind fun rows => .ok rows.reduceOption

/-- A JSON scalar fed to Python `float(...)`: either a numeric value or a
value on which `float` raises (`TypeError`/`ValueError`). -/
inductive NumVal where
  | num (q : ℚ)
  | notNum
  deriving DecidableEq

/-- A nested GTFS-style `position` dict of a vehicle's attributes. -/
structure VPos where
  latitude : Option NumVal
  longitude : Option NumVal
  deriving DecidableEq

/-- Python `float(v)` returning `none` when it would raise. -/
def pyFloat : NumVal → Option ℚ
  | .num q => some q
  | .notNum => none

/-- Attributes of one vehicle resource. -/
structure VehAttrs where
  latitude : Option NumVal
  longitude : Option NumVal
  bearing : Option NumVal
  position : Option VPos
  deriving DecidableEq

/-- One resource of a vehicles payload's `data` array; `relstop` is the id
reached via `relationships.stop.data.id` (None when the chain breaks). -/
structure VehItem where
  id : String
  relstop : Option String
  attributes : VehAttrs
  deriving DecidableEq

/-- A vehicles API response. -/
structure VehPayload where
  error : Bool
  data : List VehItem
  included : List Inc
  deriving DecidableEq

/-- Current-stop name of one vehicle item: `"Unknown"` unless the stop
reference resolves in `included`, then `attributes.get("name", stop_id)`. -/
def vehStopName (lk : List ((String × String) × Inc)) (it : VehItem) : String :=
  match it.relstop with
  | none => "Unknown"
  | some sid =>
    match lookupA lk ("stop", sid) with
    | none => "Unknown"
    | some res => res.attributes.name.getD sid

/-- Source `_vehicle_to_stop_map`: vehicle id to current-stop name. -/
def _vehicle_to_stop_map (vr : VehPayload) : List (String × String) :=
  if vr.error then [] else
    vr.data.foldl (fun d it => updA d it.id (vehStopName (_build_included_lookup vr.included) it)) []

/-- One row of the near-term/future arrivals tables. -/
structure ArrOutRow where
  current_stop : String
  scheduled_arrival : Option Int
  actual_arrival : Option Int
  status : String
  deriving DecidableEq

/-- The `Current Stop` column: `vehicle_to_stop.get(v, "Unknown")` with
`"Unknown"` for a null vehicle id. -/
def currentStopOf (vm : List (String × String)) (r : ArrRawRow) : String :=
  match r.vehicle_id with
  | none => "Unknown"
  | some v => (lookupA vm v).getD "Unknown"

/-- Near-term window test `(arrival_dt >= now) & (arrival_dt <= now + 10
minutes)`; a null instant (`NaT`) fails both comparisons. -/
def nearMask (now : Int) : Option Int → Bool
  | none => false
  | some t => decide (now ≤ t) && decide (t ≤ now + 600000000)

/-- Future window test, identical with a 60-minute horizon. -/
def futureMask (now : Int) : Option Int → Bool
  | none => false
  | some t => decide (now ≤ t) && decide (t ≤ now + 3600000000)

/-- Source `parse_near_term_arrivals`: raw arrivals, a `Current Stop`
column from the vehicles payload, then the rows whose best-available
arrival instant lies in `[now, now + 10 min]`. -/
def parse_near_term_arrivals (now : Int) (pr : PredPayload) (vr : VehPayload) :
    Res (List ArrOutRow) :=
  (_parse_arrivals_raw pr).bind fun raw =>
    if raw = [] then .ok [] else
      let vm := _vehicle_to_stop_map vr
      .ok ((raw.filter fun r => nearMask now r.arrival_time_dt).map fun r =>
        ⟨currentStopOf vm r, r.scheduled_arrival, r.actual_arrival, r.status⟩)

/-- Source `parse_future_arrivals`: same with a 60-minute window. -/
def parse_future_arrivals (now : Int) (pr : PredPayload) (vr : VehPayload) :
    Res (List ArrOutRow) :=
  (_parse_arrivals_raw pr).bind fun raw =>
    if raw = [] then .ok [] else
      let vm := _vehicle_to_stop_map vr
      .ok ((raw.filter fun r => futureMask now r.arrival_time_dt).map fun r =>
        ⟨currentStopOf vm r, r.scheduled_arrival, r.actual_arrival, r.status⟩)

/-- Value of the vehicle-to-next-stop mapping: next stop name, expected
instant, and minutes behind schedule (a float in the source, a rational
here: microseconds behind divided by 60·10^6). -/
structure NSEntry where
  stop_name : String
  expected_time : Int
  minutes_behind : Option ℚ
  deriving DecidableEq

/-- One iteration of the `_next_stop_by_vehicle` loop up to the dict
update: skip items with no vehicle reference before touching any time
field; parse `arrival_time or departure_time` (string-level `or`); skip a
null or past instant; then resolve the schedule (a dangling reference
raises) and parse the four-way schedule fallback. Returns `none` for a
`continue`, `some (vehicle_id, entry)` for a candidate update. -/
def nsItem (lk : List ((String × String) × Inc)) (now : Int) (it : PredItem) :
    Res (Option (String × NSEntry)) := do
  match it.relationships.vehicle with
  | none => return none
  | some vid =>
    let stop_name :=
      match it.relationships.stop with
      | none => "Unknown"
      | some sid =>
        match lookupA lk ("stop", sid) with
        | none => "Unknown"
        | some res => res.attributes.name.getD sid
    let pred_dt ← _parse_iso (tstrOr it.attributes.arrival_time it.attributes.departure_time)
    match pred_dt with
    | none => return none
    | some t =>
      if t < now then return none
      else do
        let sched_attrs ← resolveAttrs lk "schedule" it.relationships.schedule
        let sched_dt ← _parse_iso (tstrOr sched_attrs.arrival_time (tstrOr sched_attrs.arrival
          (tstrOr sched_attrs.departure_time sched_attrs.departure)))
        return some (vid, ⟨stop_name, t,
          sched_dt.map fun s => (((t - s : Int) : ℚ) / 60000000)⟩)

/-- The merger's dict update
`if vid not in by_vehicle or by_vehicle[vid]["expected_time"] > pred_dt`:
a new key is appended; an existing key is replaced in place only when the
stored expected instant is strictly later. -/
def updNS : List (String × NSEntry) → String → NSEntry → List (String × NSEntry)
  | [], v, e => [(v, e)]
  | (k, old) :: rest, v, e =>
    if k = v then
      (if old.expected_time > e.expected_time then (k, e) else (k, old)) :: rest
    else
      (k, old) :: updNS rest v e

/-- The `_next_stop_by_vehicle` loop over the `data` array, threading the
`by_vehicle` dict; an uncaught exception in any iteration aborts the call. -/
def nsFold (lk : List ((String × String) × Inc)) (now : Int) :
    List PredItem → List (String × NSEntry) → Res (List (String × NSEntry))
  | [], d => .ok d
  | it :: rest, d =>
    (nsItem lk now it).bind fun r =>
      match r with
      | none => nsFold lk now rest d
      | some (vid, e) => nsFold lk now rest (updNS d vid e)

/-- Source `_next_stop_by_vehicle`: error-flagged input gives the empty
mapping, else the loop above starting from the empty dict. -/
def _next_stop_by_vehicle (now : Int) (pr : PredPayload) : Res (List (String × NSEntry)) :=
  if pr.error then .ok [] else nsFold (lkOf pr) now pr.data []

/-- One vehicle marker for the map. -/
structure VehMapRow where
  lat : ℚ
  lon : ℚ
  bearing : Option ℚ
  vehicle_id : String
  deriving DecidableEq

/-- One iteration of the `parse_vehicles_for_map` loop: latitude falls back
to `position.latitude` only when the direct key is `None` and `position`
is present; a row is dropped (`continue`) when either coordinate is
missing or fails `float(...)`; a failing bearing is nulled, not dropping
the row. -/
def vehRow (it : VehItem) : Option VehMapRow :=
  let a := it.attributes
  let lat := match a.latitude with
    | some v => some v
    | none => a.position.bind VPos.latitude
  let lon := match a.longitude with
    | some v => some v
    | none => a.position.bind VPos.longitude
  match lat, lon with
  | some la, some lo =>
    match pyFloat la, pyFloat lo with
    | some qa, some qb => some ⟨qa, qb, a.bearing.bind pyFloat, it.id⟩
    | _, _ => none
  | _, _ => none

/-- Source `parse_vehicles_for_map`. -/
def parse_vehicles_for_map (vr : VehPayload) : List VehMapRow :=
  if vr.error then [] else vr.data.filterMap vehRow

/-- The `polyline` attribute of a shape resource, classified by how the
source's guard and `polyline.decode` treat it: absent (`None` or not a
string), the empty string (falsy, so the guard falls through to `points`),
a non-empty string on which `decode` raises (caught; the function returns
`None` without trying `points`), or a non-empty string decoding to a list
of (lat, lon) pairs. -/
inductive PolyVal where
  | pnull
  | pempty
  | pbad
  | pok (coords : List (ℚ × ℚ))
  deriving DecidableEq

/-- One `points` entry that is a dict: `la` models
`pt.get("latitude") or pt.get("lat")` and `lo` the longitude chain (a
non-dict entry is simply skipped by the loop and is not carried here). -/
structure SPoint where
  la : Option NumVal
  lo : Option NumVal
  deriving DecidableEq

/-- Attributes of one shape resource. -/
structure ShapeAttrs where
  polyline : PolyVal
  points : List SPoint
  deriving DecidableEq

/-- One resource of a shapes payload's `data` array. -/
structure ShapeItem where
  attributes : ShapeAttrs
  deriving DecidableEq

/-- A shapes API response. -/
structure ShapePayload where
  error : Bool
  data : List ShapeItem
  deriving DecidableEq

/-- The `points` fallback loop of `_decode_shape_to_lons_lats`: entries
with both coordinates present are appended to the lat/lon lists after
`float(...)`, which raises (uncaught) on a non-numeric value; entries
missing a coordinate are skipped. -/
def ptsFold : List SPoint → List ℚ → List ℚ → Res (List ℚ × List ℚ)
  | [], lats, lons => .ok (lats, lons)
  | p :: rest, lats, lons =>
    match p.la, p.lo with
    | some a, some b =>
      match pyFloat a, pyFloat b with
      | some qa, some qb => ptsFold rest (lats ++ [qa]) (lons ++ [qb])
      | _, _ => .err
    | _, _ => ptsFold rest lats lons

/-- Source `_decode_shape_to_lons_lats`: a non-empty polyline string is
decoded (a raising or empty decode yields `None` without consulting
`points`); otherwise the `points` fallback runs, yielding `(lons, lats)`
when both lists end non-empty and `None` otherwise. -/
def _decode_shape_to_lons_lats (it : ShapeItem) : Res (Option (List ℚ × List ℚ)) :=
  match it.attributes.polyline with
  | .pok coords =>
    if coords = [] then .ok none
    else .ok (some (coords.map Prod.snd, coords.map Prod.fst))
  | .pbad => .ok none
  | _ =>
    match it.attributes.points with
    | [] => .ok none
    | pts =>
      (ptsFold pts [] []).bind fun r =>
        .ok (if r.1 ≠ [] ∧ r.2 ≠ [] then some (r.2, r.1) else none)

/-- The `parse_red_line_shape` loop: decode each shape, keep the non-`None`
segments, propagate any uncaught exception. -/
def shapeCollect : List ShapeItem → Res (List (List ℚ × List ℚ))
  | [] => .ok []
  | it :: rest =>
    (_decode_shape_to_lons_lats it).bind fun dec =>
      match dec with
      | none => shapeCollect rest
      | some g => (shapeCollect rest).bind fun gs => .ok (g :: gs)

/-- Source `parse_red_line_shape`. -/
def parse_red_line_shape (sp : ShapePayload) : Res (List (List ℚ × List ℚ)) :=
  if sp.error then .ok [] else shapeCollect sp.data

/-- Python `max(iterable, key=...)` starting from a current best: keeps the
earlier element on ties (replaces only on strictly greater key). -/
def pymax {α : Type} (key : α → Nat) : α → List α → α
  | cur, [] => cur
  | cur, x :: xs => pymax key (if key x > key cur then x else cur) xs

/-- Source `parse_route_shapes_merged`: `None` when no shape decoded, else
`max(shapes, key=lambda s: len(s[0]))`, the segment with the most
longitude entries (first such segment on ties). -/
def parse_route_shapes_merged (sp : ShapePayload) : Res (Option (List ℚ × List ℚ)) :=
  (parse_red_line_shape sp).bind fun shapes =>
    match shapes with
    | [] => .ok none
    | s :: rest => .ok (some (pymax (fun g => g.1.length) s rest))

/-- A prediction item of the list `xs` that the merger accepts for vehicle
`vid` with expected instant `t` (i.e. yields a candidate dict update). -/
def QualL (lk : List ((String × String) × Inc)) (now : Int) (xs : List PredItem)
    (vid : String) (t : Int) : Prop :=
  ∃ it ∈ xs, ∃ e : NSEntry, nsItem lk now it = .ok (some (vid, e)) ∧ e.expected_time = t

/-- Whether a merger iteration on this item is anything but a silent
`continue` (it either raises or proposes a dict update). -/
def nsContributes (lk : List ((String × String) × Inc)) (now : Int) (it : PredItem) : Bool :=
  decide (nsItem lk now it ≠ .ok none)

/-- Modelled from the spec (section 4.3 Status Deriver, threshold 2
minutes): 1. actual null gives Cancelled; 2. else scheduled null gives On
Time; 3. else the delta `actual - scheduled` in seconds is compared against
`threshold * 60 = 120` seconds (at most 120, including every negative
delta, gives On Time; more gives Delayed). Written from the spec's words,
to be compared with the source-side `_derive_status`. -/
def statusSpec (scheduled actual : Option Int) : String :=
  match actual with
  | none => "Cancelled"
  | some a =>
    match scheduled with
    | none => "On Time"
    | some s => if a - s ≤ 120 * 1000000 then "On Time" else "Delayed"

/-! ### Concrete example inputs -/

/-- A southbound prediction whose predicted-arrival timestamp string is
malformed ISO-8601. -/
def badDepItem : PredItem := ⟨⟨some 0, .malformed, .null⟩, ⟨none, none, none, none⟩⟩

/-- A well-formed southbound prediction (predicted arrival at epoch+1000 s,
explicit offset, no schedule). -/
def goodDepItem : PredItem := ⟨⟨some 0, .aware 1000000000 0, .null⟩, ⟨none, none, none, none⟩⟩

/-- A well-formed northbound prediction arriving 5 minutes after epoch. -/
def arrItem5min : PredItem := ⟨⟨some 1, .aware 300000000 0, .null⟩, ⟨none, none, none, none⟩⟩

/-- Prediction for vehicle "v" at epoch+5 minutes. -/
def nsItemA : PredItem := ⟨⟨none, .aware 300000000 0, .null⟩, ⟨none, none, some "v", none⟩⟩

/-- Prediction for vehicle "v" at epoch+12 minutes. -/
def nsItemB : PredItem := ⟨⟨none, .aware 720000000 0, .null⟩, ⟨none, none, some "v", none⟩⟩

/-- Prediction with a vehicle but no resolvable time (null timestamps). -/
def nsItemNull : PredItem := ⟨⟨none, .null, .null⟩, ⟨none, none, some "w", none⟩⟩

/-- A shape resource with no polyline and one points entry whose latitude
value is present but not parseable as a number (so `float(...)` raises). -/
def badShapeItem : ShapeItem := ⟨⟨.pnull, [⟨some .notNum, some (.num 1)⟩]⟩⟩

/-- A decodable one-point shape. -/
def shapeOnePt : ShapeItem := ⟨⟨.pok [(1, 2)], []⟩⟩

/-- A decodable two-point shape. -/
def shapeTwoPt : ShapeItem := ⟨⟨.pok [(1, 2), (3, 4)], []⟩⟩

/-- A shape that fails to decode without raising (empty polyline string and
no points). -/
def shapeUndec : ShapeItem := ⟨⟨.pempty, []⟩⟩

/-- An alert whose first active period (start epoch+0, end epoch+500 s) has
expired at `now` = epoch+1000 s while its second period covers `now`. -/
def alertSecondPeriod : AlertItem :=
  ⟨⟨some 1, some "d", none, none,
    [⟨.aware 0 0, .aware 500000000 0⟩, ⟨.aware 900000000 0, .aware 2000000000 0⟩]⟩⟩

/-! ### General lemmas about the loop combinators -/

theorem mapME_err_of_mem {α β : Type} (f : α → Res β) {x : α} :
    ∀ {xs : List α}, x ∈ xs → f x = .err → mapME f xs = .err := by
  intro xs
  induction xs with
  | nil => intro h; cases h
  | cons y ys ih =>
    intro hmem hf
    rcases List.mem_cons.mp hmem with h | h
    · subst h; simp [mapME, hf]
    · cases hfy : f y with
      | err => simp [mapME, hfy]
      | ok v => simp [mapME, hfy, ih h hf]

theorem mapME_ok_length {α β : Type} (f : α → Res β) :
    ∀ {xs : List α} {ys : List β}, mapME f xs = .ok ys → ys.length = xs.length := by
  intro xs
  induction xs with
  | nil =>
    intro ys h
    simp only [mapME] at h
    injection h with h
    subst h; rfl
  | cons x xs ih =>
    intro ys h
    cases hfx : f x with
    | err => simp [mapME, hfx] at h
    | ok v =>
      simp only [mapME, hfx] at h
      cases hrest : mapME f xs with
      | err => rw [hrest] at h; cases h
      | ok vs =>
        rw [hrest] at h
        injection h with h
        subst h
        simp [ih hrest]

theorem mapME_ok_get {α β : Type} (f : α → Res β) :
    ∀ (xs : List α) (ys : List β), mapME f xs = .ok ys →
      ∀ i (hi : i < xs.length) (hj : i < ys.length),
        f (xs.get ⟨i, hi⟩) = .ok (ys.get ⟨i, hj⟩) := by
  intro xs
  induction xs with
  | nil => intro ys h i hi hj; cases hi
  | cons x xs ih =>
    intro ys h i hi hj
    cases hfx : f x with
    | err => simp [mapME, hfx] at h
    | ok v =>
      simp only [mapME, hfx] at h
      cases hrest : mapME f xs with
      | err => rw [hrest] at h; cases h
      | ok vs =>
        rw [hrest] at h
        injection h with h
        subst h
        cases i with
        | zero => simpa using hfx
        | succ n =>
          exact ih vs hrest n (Nat.lt_of_succ_lt_succ hi) (Nat.lt_of_succ_lt_succ hj)

theorem nsFold_err_of_mem (lk : List ((String × String) × Inc)) (now : Int) {it : PredItem} :
    ∀ {xs : List PredItem} {d : List (String × NSEntry)},
      it ∈ xs → nsItem lk now it = .err → nsFold lk now xs d = .err := by
  intro xs
  induction xs with
  | nil => intro d h; cases h
  | cons y ys ih =>
    intro d hmem hit
    rcases List.mem_cons.mp hmem with h | h
    · subst h; simp [nsFold, hit, Res.bind]
    · cases hfy : nsItem lk now y with
      | err => simp [nsFold, hfy, Res.bind]
      | ok r =>
        cases r with
        | none => simpa [nsFold, hfy, Res.bind] using ih h hit
        | some p =>
          obtain ⟨v, e⟩ := p
          simpa [nsFold, hfy, Res.bind] using ih h hit

theorem lookupA_updNS_self (d : List (String × NSEntry)) (v : String) (e : NSEntry) :
    lookupA (updNS d v e) v = some (
      match lookupA d v with
      | none => e
      | some old => if old.expected_time > e.expected_time then e else old) := by
  induction d with
  | nil => simp [updNS, lookupA]
  | cons p rest ih =>
    obtain ⟨k, old⟩ := p
    by_cases hk : k = v
    · subst hk
      by_cases hgt : old.expected_time > e.expected_time <;>
        simp [updNS, lookupA, hgt]
    · simp [updNS, lookupA, hk, ih]

theorem lookupA_updNS_other (d : List (String × NSEntry)) (v w : String) (e : NSEntry)
    (h : ¬ v = w) : lookupA (updNS d v e) w = lookupA d w := by
  induction d with
  | nil => simp [updNS, lookupA, h]
  | cons p rest ih =>
    obtain ⟨k, old⟩ := p
    by_cases hk : k = v
    · subst hk
      by_cases hgt : old.expected_time > e.expected_time <;>
        simp [updNS, lookupA, hgt, h]
    · have h2 : ¬ w = v := fun hh => h hh.symm
      by_cases hkw : k = w <;> simp [updNS, lookupA, hk, hkw, h2, ih]

theorem QualL_nil (lk : List ((String × String) × Inc)) (now : Int) (vid : String) (t : Int) :
    ¬ QualL lk now [] vid t := by
  simp [QualL]

theorem QualL_cons_none {lk : List ((String × String) × Inc)} {now : Int} {it : PredItem}
    {xs : List PredItem} {vid : String} {t : Int}
    (h : nsItem lk now it = .ok none) :
    QualL lk now (it :: xs) vid t ↔ QualL lk now xs vid t := by
  constructor
  · rintro ⟨it', hmem, e, he, ht⟩
    rcases List.mem_cons.mp hmem with h1 | h1
    · subst h1; rw [h] at he; cases he
    · exact ⟨it', h1, e, he, ht⟩
  · rintro ⟨it', hmem, e, he, ht⟩
    exact ⟨it', List.mem_cons_of_mem _ hmem, e, he, ht⟩

theorem QualL_cons_some {lk : List ((String × String) × Inc)} {now : Int} {it : PredItem}
    {xs : List PredItem} {vid v' : String} {e' : NSEntry} {t : Int}
    (h : nsItem lk now it = .ok (some (v', e'))) :
    QualL lk now (it :: xs) vid t ↔
      ((vid = v' ∧ t = e'.expected_time) ∨ QualL lk now xs vid t) := by
  constructor
  · rintro ⟨it', hmem, e, he, ht⟩
    rcases List.mem_cons.mp hmem with h1 | h1
    · subst h1
      rw [h] at he
      obtain ⟨hv, hee⟩ : v' = vid ∧ e' = e := by simpa using he
      exact Or.inl ⟨hv.symm, by rw [hee, ht]⟩
    · exact Or.inr ⟨it', h1, e, he, ht⟩
  · rintro (⟨hv, ht⟩ | ⟨it', hmem, e, he, ht⟩)
    · subst hv; subst ht
      exact ⟨it, List.mem_cons_self it xs, e', h, rfl⟩
    · exact ⟨it', List.mem_cons_of_mem _ hmem, e, he, ht⟩


theorem nsFold_inv (lk : List ((String × String) × Inc)) (now : Int) :
    ∀ (xs : List PredItem) (d m : List (String × NSEntry)),
      nsFold lk now xs d = .ok m → ∀ vid : String,
      (∀ e, lookupA m vid = some e →
          (lookupA d vid = some e ∨ QualL lk now xs vid e.expected_time) ∧
          (∀ t, QualL lk now xs vid t → e.expected_time ≤ t) ∧
          (∀ e0, lookupA d vid = some e0 → e.expected_time ≤ e0.expected_time)) ∧
      (lookupA m vid = none → lookupA d vid = none ∧ ∀ t, ¬ QualL lk now xs vid t) := by
  intro xs
  induction xs with
  | nil =>
    intro d m h vid
    simp only [nsFold] at h
    injection h with h
    subst h
    constructor
    · intro e he
      refine ⟨Or.inl he, ?_, ?_⟩
      · intro t ht; exact absurd ht (QualL_nil lk now vid t)
      · intro e0 he0
        have hee : e = e0 := Option.some.inj (he.symm.trans he0)
        exact le_of_eq (congrArg NSEntry.expected_time hee)
    · intro hn
      exact ⟨hn, fun t => QualL_nil lk now vid t⟩
  | cons it xs ih =>
    intro d m h vid
    cases hni : nsItem lk now it with
    | err =>
      rw [nsFold, hni] at h
      exact Res.noConfusion h
    | ok r =>
      cases r with
      | none =>
        have h' : nsFold lk now xs d = .ok m := by
          simpa only [nsFold, hni, Res.bind] using h
        have IH := ih d m h' vid
        constructor
        · intro e he
          obtain ⟨h1, h2, h3⟩ := IH.1 e he
          refine ⟨?_, ?_, h3⟩
          · rcases h1 with h1 | h1
            · exact Or.inl h1
            · exact Or.inr ((QualL_cons_none hni).mpr h1)
          · intro t ht; exact h2 t ((QualL_cons_none hni).mp ht)
        · intro hn
          obtain ⟨h1, h2⟩ := IH.2 hn
          exact ⟨h1, fun t ht => h2 t ((QualL_cons_none hni).mp ht)⟩
      | some p =>
        obtain ⟨v', e'⟩ := p
        have h' : nsFold lk now xs (updNS d v' e') = .ok m := by
          simpa only [nsFold, hni, Res.bind] using h
        have IH := ih (updNS d v' e') m h' vid
        by_cases hvv : vid = v'
        · subst hvv
          cases hld : lookupA d vid with
          | none =>
            have hd' : lookupA (updNS d vid e') vid = some e' := by
              rw [lookupA_updNS_self, hld]
            constructor
            · intro e he
              obtain ⟨h1, h2, h3⟩ := IH.1 e he
              have hmin : e.expected_time ≤ e'.expected_time := h3 e' hd'
              refine ⟨?_, ?_, ?_⟩
              · rcases h1 with h1 | h1
                · have hxe : e' = e := Option.some.inj (hd'.symm.trans h1)
                  exact Or.inr ((QualL_cons_some hni).mpr
                    (Or.inl ⟨rfl, congrArg NSEntry.expected_time hxe.symm⟩))
                · exact Or.inr ((QualL_cons_some hni).mpr (Or.inr h1))
              · intro t ht
                rcases (QualL_cons_some hni).mp ht with ⟨_, ht'⟩ | htail
                · omega
                · exact h2 t htail
              · intro e0 he0
                exact Option.noConfusion he0
            · intro hn
              obtain ⟨h1, _⟩ := IH.2 hn
              exact Option.noConfusion (hd'.symm.trans h1)
          | some old =>
            have hd0 : lookupA (updNS d vid e') vid =
                some (if old.expected_time > e'.expected_time then e' else old) := by
              rw [lookupA_updNS_self, hld]
            by_cases hgt : old.expected_time > e'.expected_time
            · rw [if_pos hgt] at hd0
              constructor
              · intro e he
                obtain ⟨h1, h2, h3⟩ := IH.1 e he
                have hmin : e.expected_time ≤ e'.expected_time := h3 e' hd0
                refine ⟨?_, ?_, ?_⟩
                · rcases h1 with h1 | h1
                  · have hxe : e' = e := Option.some.inj (hd0.symm.trans h1)
                    exact Or.inr ((QualL_cons_some hni).mpr
                      (Or.inl ⟨rfl, congrArg NSEntry.expected_time hxe.symm⟩))
                  · exact Or.inr ((QualL_cons_some hni).mpr (Or.inr h1))
                · intro t ht
                  rcases (QualL_cons_some hni).mp ht with ⟨_, ht'⟩ | htail
                  · omega
                  · exact h2 t htail
                · intro e0 he0
                  have hoe : old = e0 := Option.some.inj he0
                  have hoex : old.expected_time = e0.expected_time :=
                    congrArg NSEntry.expected_time hoe
                  omega
              · intro hn
                obtain ⟨h1, _⟩ := IH.2 hn
                exact Option.noConfusion (hd0.symm.trans h1)
            · rw [if_neg hgt] at hd0
              constructor
              · intro e he
                obtain ⟨h1, h2, h3⟩ := IH.1 e he
                have hmin : e.expected_time ≤ old.expected_time := h3 old hd0
                refine ⟨?_, ?_, ?_⟩
                · rcases h1 with h1 | h1
                  · have hxe : old = e := Option.some.inj (hd0.symm.trans h1)
                    exact Or.inl (congrArg some hxe)
                  · exact Or.inr ((QualL_cons_some hni).mpr (Or.inr h1))
                · intro t ht
                  rcases (QualL_cons_some hni).mp ht with ⟨_, ht'⟩ | htail
                  · omega
                  · exact h2 t htail
                · intro e0 he0
                  have hoe : old = e0 := Option.some.inj he0
                  have hoex : old.expected_time = e0.expected_time :=
                    congrArg NSEntry.expected_time hoe
                  omega
              · intro hn
                obtain ⟨h1, _⟩ := IH.2 hn
                exact Option.noConfusion (hd0.symm.trans h1)
        · have hoth : lookupA (updNS d v' e') vid = lookupA d vid :=
            lookupA_updNS_other d v' vid e' (fun hh => hvv hh.symm)
          constructor
          · intro e he
            obtain ⟨h1, h2, h3⟩ := IH.1 e he
            refine ⟨?_, ?_, ?_⟩
            · rcases h1 with h1 | h1
              · exact Or.inl (hoth.symm.trans h1)
              · exact Or.inr ((QualL_cons_some hni).mpr (Or.inr h1))
            · intro t ht
              rcases (QualL_cons_some hni).mp ht with ⟨hveq, _⟩ | htail
              · exact absurd hveq hvv
              · exact h2 t htail
            · intro e0 he0
              exact h3 e0 (hoth.trans he0)
          · intro hn
            obtain ⟨h1, h2⟩ := IH.2 hn
            refine ⟨hoth.symm.trans h1, ?_⟩
            intro t ht
            rcases (QualL_cons_some hni).mp ht with ⟨hveq, _⟩ | htail
            · exact absurd hveq hvv
            · exact h2 t htail

theorem nsFold_filter (lk : List ((String × String) × Inc)) (now : Int) :
    ∀ (xs : List PredItem) (d : List (String × NSEntry)),
      nsFold lk now (xs.filter (nsContributes lk now)) d = nsFold lk now xs d := by
  intro xs
  induction xs with
  | nil => intro d; rfl
  | cons it xs ih =>
    intro d
    cases hni : nsItem lk now it with
    | err =>
      have hc : nsContributes lk now it = true := by
        simp [nsContributes, hni]
      rw [List.filter_cons_of_pos hc, nsFold, nsFold, hni]
      rfl
    | ok r =>
      cases r with
      | none =>
        have hc : nsContributes lk now it = false := by
          simp [nsContributes, hni]
        rw [List.filter_cons_of_neg (by simp [hc]), nsFold, hni]
        simp only [Res.bind]
        exact ih d
      | some p =>
        obtain ⟨v, e⟩ := p
        have hc : nsContributes lk now it = true := by
          simp [nsContributes, hni]
        rw [List.filter_cons_of_pos hc, nsFold, nsFold, hni]
        simp only [Res.bind]
        exact ih (updNS d v e)

theorem shapeCollect_append_skip {it : ShapeItem} (h : _decode_shape_to_lons_lats it = .ok none) :
    ∀ (xs ys : List ShapeItem),
      shapeCollect (xs ++ it :: ys) = shapeCollect (xs ++ ys) := by
  intro xs ys
  induction xs with
  | nil => simp [shapeCollect, h, Res.bind]
  | cons x xs ih =>
    simp only [List.cons_append, shapeCollect]
    cases hx : _decode_shape_to_lons_lats x with
    | err => rfl
    | ok dec =>
      cases dec with
      | none => simpa [Res.bind] using ih
      | some g => simp [Res.bind, ih]

theorem shapeCollect_all_none :
    ∀ (xs : List ShapeItem), (∀ it ∈ xs, _decode_shape_to_lons_lats it = .ok none) →
      shapeCollect xs = .ok [] := by
  intro xs
  induction xs with
  | nil => intro _; rfl
  | cons x xs ih =>
    intro h
    have hx := h x (List.mem_cons_self x xs)
    simp only [shapeCollect, hx, Res.bind]
    exact ih fun it hit => h it (List.mem_cons_of_mem _ hit)

theorem pymax_mem {α : Type} (key : α → Nat) :
    ∀ (xs : List α) (cur : α), pymax key cur xs ∈ cur :: xs := by
  intro xs
  induction xs with
  | nil => intro cur; simp [pymax]
  | cons x xs ih =>
    intro cur
    rw [pymax]
    by_cases hgt : key x > key cur
    · rw [if_pos hgt]
      rcases List.mem_cons.mp (ih x) with h | h
      · rw [h]; exact List.mem_cons_of_mem _ (List.mem_cons_self x xs)
      · exact List.mem_cons_of_mem _ (List.mem_cons_of_mem _ h)
    · rw [if_neg hgt]
      rcases List.mem_cons.mp (ih cur) with h | h
      · rw [h]; exact List.mem_cons_self cur (x :: xs)
      · exact List.mem_cons_of_mem _ (List.mem_cons_of_mem _ h)

theorem pymax_ge {α : Type} (key : α → Nat) :
    ∀ (xs : List α) (cur y : α), y ∈ cur :: xs → key y ≤ key (pymax key cur xs) := by
  intro xs
  induction xs with
  | nil =>
    intro cur y hy
    rcases List.mem_cons.mp hy with h | h
    · rw [h, pymax]
    · cases h
  | cons x xs ih =>
    intro cur y hy
    rw [pymax]
    have hcur : ∀ z : α, key z ≤ key (if key x > key cur then x else cur) →
        key z ≤ key (pymax key (if key x > key cur then x else cur) xs) := by
      intro z hz
      exact le_trans hz (ih _ _ (List.mem_cons_self _ xs))
    rcases List.mem_cons.mp hy with h | h
    · subst h
      by_cases hgt : key x > key y
      · rw [if_pos hgt]
        exact le_trans (le_of_lt hgt) (ih _ _ (List.mem_cons_self _ xs))
      · rw [if_neg hgt]
        exact ih _ _ (List.mem_cons_self _ xs)
    · rcases List.mem_cons.mp h with h2 | h2
      · subst h2
        by_cases hgt : key y > key cur
        · rw [if_pos hgt]
          exact ih _ _ (List.mem_cons_self _ xs)
        · rw [if_neg hgt]
          exact le_trans (by omega) (ih _ _ (List.mem_cons_self _ xs))
      · by_cases hgt : key x > key cur <;> [rw [if_pos hgt]; rw [if_neg hgt]] <;>
          exact ih _ _ (List.mem_cons_of_mem _ h2)

/-! ### Claim theorems -/

/-- C2 (confirmed): for every pair of nullable normalized instants and the
default 2-minute threshold, the Status Deriver returns Cancelled when the
actual/predicted instant is null; otherwise On Time when the scheduled
instant is null; otherwise On Time exactly when the actual-minus-scheduled
delta is at most 120 seconds — including every negative (early) delta —
and Delayed otherwise: `_derive_status` at threshold 2 coincides with the
spec-side rule `statusSpec`. -/
theorem C2_theorem : ∀ scheduled actual : Option Int,
    _derive_status scheduled actual 2 = statusSpec scheduled actual := by
  intro s a
  cases a with
  | none => cases s <;> rfl
  | some p =>
    cases s with
    | none => rfl
    | some q =>
      simp only [_derive_status, statusSpec]
      norm_num

/-- C3 counterexample: the claim says `derive(None, actual) = Cancelled`,
but on the code a null schedule with a present prediction yields
`"On Time"`, not `"Cancelled"`. -/
theorem C3_counterexample :
    _derive_status none (some 0) 2 = "On Time" ∧
    _derive_status none (some 0) 2 ≠ "Cancelled" := by
  exact ⟨rfl, by decide⟩

/-- C3 (corrected): for every non-null actual/predicted instant, the Status
Deriver called with a null schedule returns On Time (and, dually, a null
actual gives Cancelled whatever the schedule). -/
theorem C3_theorem :
    (∀ a : Int, _derive_status none (some a) 2 = "On Time") ∧
    (∀ s : Option Int, _derive_status s none 2 = "Cancelled") := by
  constructor
  · intro a; rfl
  · intro s; cases s <;> rfl

/-- C4 (confirmed): the Time Normalizer maps null/empty input to null; any
two well-formed offset-bearing strings denoting the same absolute instant
(wall minus offset) normalize to the same UTC instant; and a naive string
is read as America/New_York wall-clock time and converted to UTC (its
epoch value minus the zone offset `nyOffsetUs`). -/
theorem C4_theorem :
    (_parse_iso .null = .ok none) ∧ (_parse_iso .empty = .ok none) ∧
    (∀ w1 o1 w2 o2 : Int, w1 - o1 = w2 - o2 →
      _parse_iso (.aware w1 o1) = _parse_iso (.aware w2 o2)) ∧
    (∀ dt : NaiveDT, _parse_iso (.naive dt) = .ok (some (dt.toEpochUs - nyOffsetUs dt))) := by
  refine ⟨rfl, rfl, ?_, fun dt => rfl⟩
  intro w1 o1 w2 o2 h
  simp [_parse_iso, h]

/-- C4 witness: "2024-01-01T08:00:00-05:00" (wall 2024-01-01T08:00 as
microseconds, offset -5 h) and its UTC-equivalent "2024-01-01T13:00:00Z"
denote the same instant and normalize identically; and the naive summer
string "2024-07-01T08:00:00" normalizes to 2024-07-01T12:00:00Z (EDT). -/
theorem C4_witness :
    ((1704096000000000 : Int) - (-18000000000) = 1704114000000000 - 0 ∧
      _parse_iso (.aware 1704096000000000 (-18000000000)) =
        _parse_iso (.aware 1704114000000000 0)) ∧
    _parse_iso (.naive ⟨2024, 7, 1, 8, 0, 0, 0⟩) =
      .ok (some ((⟨2024, 7, 1, 8, 0, 0, 0⟩ : NaiveDT).toEpochUs -
        nyOffsetUs ⟨2024, 7, 1, 8, 0, 0, 0⟩)) :=
  ⟨⟨by decide, C4_theorem.2.2.1 1704096000000000 (-18000000000) 1704114000000000 0 (by decide)⟩,
   C4_theorem.2.2.2 ⟨2024, 7, 1, 8, 0, 0, 0⟩⟩

/-- C5 (confirmed): on a payload whose error flag is truthy, every Record
Flattener operation returns its empty result — empty alert/departure/
arrival tables, the empty vehicle-to-stop and next-stop mappings, the empty
vehicle marker list, the empty shape-segment list and a null merged
geometry — and none of them raises. -/
theorem C5_theorem (now : Int) (ap : AlertPayload) (pr : PredPayload)
    (vr : VehPayload) (sp : ShapePayload)
    (ha : ap.error = true) (hp : pr.error = true) (hv : vr.error = true)
    (hs : sp.error = true) :
    parse_alerts now ap = .ok [] ∧
    parse_departures pr = .ok [] ∧
    _parse_arrivals_raw pr = .ok [] ∧
    parse_near_term_arrivals now pr vr = .ok [] ∧
    parse_future_arrivals now pr vr = .ok [] ∧
    _next_stop_by_vehicle now pr = .ok [] ∧
    _vehicle_to_stop_map vr = [] ∧
    parse_vehicles_for_map vr = [] ∧
    parse_red_line_shape sp = .ok [] ∧
    parse_route_shapes_merged sp = .ok none := by
  refine ⟨?_, ?_, ?_, ?_, ?_, ?_, ?_, ?_, ?_, ?_⟩ <;>
    simp [parse_alerts, parse_departures, _parse_arrivals_raw, parse_near_term_arrivals,
      parse_future_arrivals, _next_stop_by_vehicle, _vehicle_to_stop_map,
      parse_vehicles_for_map, parse_red_line_shape, parse_route_shapes_merged,
      Res.bind, ha, hp, hv, hs]

/-- C5 witness: the error-flagged payloads with no data, evaluated through
every flattener. -/
theorem C5_witness :
    parse_alerts 0 ⟨true, []⟩ = .ok [] ∧
    parse_departures ⟨true, [], []⟩ = .ok [] ∧
    _parse_arrivals_raw ⟨true, [], []⟩ = .ok [] ∧
    parse_near_term_arrivals 0 ⟨true, [], []⟩ ⟨true, [], []⟩ = .ok [] ∧
    parse_future_arrivals 0 ⟨true, [], []⟩ ⟨true, [], []⟩ = .ok [] ∧
    _next_stop_by_vehicle 0 ⟨true, [], []⟩ = .ok [] ∧
    _vehicle_to_stop_map ⟨true, [], []⟩ = [] ∧
    parse_vehicles_for_map ⟨true, [], []⟩ = [] ∧
    parse_red_line_shape ⟨true, []⟩ = .ok [] ∧
    parse_route_shapes_merged ⟨true, []⟩ = .ok none :=
  C5_theorem 0 ⟨true, []⟩ ⟨true, [], []⟩ ⟨true, [], []⟩ ⟨true, []⟩ rfl rfl rfl rfl

/-- C1 counterexample: a departures payload whose records are exactly one
malformed-timestamp record and one well-formed record. The claim says the
flattener substitutes null / drops the bad record and still emits the good
row; instead `parse_departures` raises (the `ValueError` from
`datetime.fromisoformat` is uncaught), emitting nothing — while the same
payload without the bad record does produce the good row. -/
theorem C1_counterexample :
    parse_departures ⟨false, [badDepItem, goodDepItem], []⟩ = .err ∧
    parse_departures ⟨false, [goodDepItem], []⟩ =
      .ok [⟨"", none, some 1000000000, "On Time"⟩] := by
  constructor <;> rfl

/-- C1 (corrected): a record whose timestamp field is malformed makes each
Record Flattener operation (`parse_departures`, `_parse_arrivals_raw`,
`parse_alerts`, `_next_stop_by_vehicle`) raise, aborting the whole payload
— the well-formed records are not emitted. Only null/empty timestamp
fields are handled locally, by substituting null; a malformed one
propagates as an uncaught exception. -/
theorem C1_theorem :
    (∀ pr : PredPayload, pr.error = false →
      (∃ it ∈ pr.data, depRow (lkOf pr) it = .err) → parse_departures pr = .err) ∧
    (∀ pr : PredPayload, pr.error = false →
      (∃ it ∈ pr.data, arrRow (lkOf pr) it = .err) → _parse_arrivals_raw pr = .err) ∧
    (∀ (now : Int) (ap : AlertPayload), ap.error = false →
      (∃ it ∈ ap.data, alertRow now it = .err) → parse_alerts now ap = .err) ∧
    (∀ (now : Int) (pr : PredPayload), pr.error = false →
      (∃ it ∈ pr.data, nsItem (lkOf pr) now it = .err) →
        _next_stop_by_vehicle now pr = .err) ∧
    (_parse_iso .null = .ok none ∧ _parse_iso .empty = .ok none ∧
      _parse_iso .malformed = .err) := by
  refine ⟨?_, ?_, ?_, ?_, rfl, rfl, rfl⟩
  · rintro pr he ⟨it, hmem, herr⟩
    rw [parse_departures, if_neg (by simp [he]), mapME_err_of_mem _ hmem herr]
    rfl
  · rintro pr he ⟨it, hmem, herr⟩
    rw [_parse_arrivals_raw, if_neg (by simp [he]), mapME_err_of_mem _ hmem herr]
    rfl
  · rintro now ap he ⟨it, hmem, herr⟩
    rw [parse_alerts, if_neg (by simp [he]), mapME_err_of_mem _ hmem herr]
  · rintro now pr he ⟨it, hmem, herr⟩
    rw [_next_stop_by_vehicle, if_neg (by simp [he])]
    exact nsFold_err_of_mem _ now hmem herr

/-- C1 witness: one malformed timestamp makes each of the four flatteners
raise — the departures payload of the counterexample, an alerts payload
whose single alert has a malformed period start, an arrivals payload with
a malformed arrival, and a merger payload whose single prediction for
vehicle "v" has a malformed arrival. -/
theorem C1_witness :
    parse_departures ⟨false, [badDepItem, goodDepItem], []⟩ = .err ∧
    _parse_arrivals_raw ⟨false, [⟨⟨some 1, .malformed, .null⟩, ⟨none, none, none, none⟩⟩], []⟩ = .err ∧
    parse_alerts 0 ⟨false, [⟨⟨none, none, none, none, [⟨.malformed, .null⟩]⟩⟩]⟩ = .err ∧
    _next_stop_by_vehicle 0
      ⟨false, [⟨⟨none, .malformed, .null⟩, ⟨none, none, some "v", none⟩⟩], []⟩ = .err :=
  ⟨C1_theorem.1 _ rfl ⟨badDepItem, by decide, by decide⟩,
   C1_theorem.2.1 _ rfl ⟨⟨⟨some 1, .malformed, .null⟩, ⟨none, none, none, none⟩⟩, by decide, by decide⟩,
   C1_theorem.2.2.1 0 _ rfl ⟨⟨⟨none, none, none, none, [⟨.malformed, .null⟩]⟩⟩, by decide, by decide⟩,
   C1_theorem.2.2.2.1 0 _ rfl
     ⟨⟨⟨none, .malformed, .null⟩, ⟨none, none, some "v", none⟩⟩, by decide, by decide⟩⟩

/-- C7 counterexample: the two windows are not disjoint. A single arrival
5 minutes from now yields the same row in the near-term view and in the
future view (the windows are `[now, now+10 min]` and `[now, now+60 min]`,
nested, not disjoint). -/
theorem C7_counterexample :
    parse_near_term_arrivals 0 ⟨false, [arrItem5min], []⟩ ⟨false, [], []⟩ =
      .ok [⟨"Unknown", none, some 300000000, "On Time"⟩] ∧
    parse_future_arrivals 0 ⟨false, [arrItem5min], []⟩ ⟨false, [], []⟩ =
      .ok [⟨"Unknown", none, some 300000000, "On Time"⟩] := by
  constructor <;> rfl

/-- C7 (corrected): the near-term and future arrival views apply the same
arrival extraction filtered to nested forward time windows of 0-10 and
0-60 minutes from now (the near-term window is contained in the future
window, so every near-term row also appears in the future view), each
window including its endpoint: an arrival exactly at now+10 minutes
passes the near-term mask, one at now+10.01 minutes does not, and one at
exactly now+60 minutes passes the future mask. -/
theorem C7_theorem :
    (∀ (now : Int) (t : Option Int), nearMask now t = true → futureMask now t = true) ∧
    (∀ now : Int, nearMask now (some (now + 600000000)) = true) ∧
    (∀ now : Int, nearMask now (some (now + 600600000)) = false) ∧
    (∀ now : Int, futureMask now (some (now + 3600000000)) = true) ∧
    (∀ (now : Int) (pr : PredPayload) (vr : VehPayload) (near fut : List ArrOutRow),
      parse_near_term_arrivals now pr vr = .ok near →
      parse_future_arrivals now pr vr = .ok fut →
      ∀ r ∈ near, r ∈ fut) := by
  refine ⟨?_, ?_, ?_, ?_, ?_⟩
  · intro now t h
    cases t with
    | none => simp [nearMask] at h
    | some t =>
      simp only [nearMask, Bool.and_eq_true, decide_eq_true_eq] at h
      simp only [futureMask, Bool.and_eq_true, decide_eq_true_eq]
      omega
  · intro now; simp [nearMask]
  · intro now; simp [nearMask]
  · intro now; simp [futureMask]
  · intro now pr vr near fut hn hf r hr
    cases hraw : _parse_arrivals_raw pr with
    | err =>
      rw [parse_near_term_arrivals, hraw] at hn
      exact Res.noConfusion hn
    | ok raw =>
      rw [parse_near_term_arrivals, hraw] at hn
      rw [parse_future_arrivals, hraw] at hf
      by_cases hempty : raw = []
      · simp only [Res.bind, if_pos hempty] at hn
        injection hn with hn
        subst hn
        cases hr
      · simp only [Res.bind, if_neg hempty] at hn hf
        injection hn with hn
        injection hf with hf
        subst hn
        subst hf
        rcases List.mem_map.mp hr with ⟨x, hx, hxr⟩
        have hxmem := List.mem_filter.mp hx
        refine List.mem_map.mpr ⟨x, List.mem_filter.mpr ⟨hxmem.1, ?_⟩, hxr⟩
        cases ht : x.arrival_time_dt with
        | none => rw [ht] at hxmem; simp [nearMask] at hxmem
        | some t =>
          have h2 := hxmem.2
          rw [ht] at h2
          simp only [nearMask, Bool.and_eq_true, decide_eq_true_eq] at h2
          simp only [futureMask, Bool.and_eq_true, decide_eq_true_eq]
          omega

/-- C7 witness: the mask endpoint facts at now = 0, the nested-window fact
at the 5-minute arrival, and the concrete row of the counterexample
payload carried from the near-term view into the future view. -/
theorem C7_witness :
    futureMask 0 (some 300000000) = true ∧
    nearMask 0 (some 600000000) = true ∧
    nearMask 0 (some 600600000) = false ∧
    futureMask 0 (some 3600000000) = true ∧
    (⟨"Unknown", none, some 300000000, "On Time"⟩ : ArrOutRow) ∈
      [(⟨"Unknown", none, some 300000000, "On Time"⟩ : ArrOutRow)] :=
  ⟨C7_theorem.1 0 (some 300000000) (by decide),
   C7_theorem.2.1 0, C7_theorem.2.2.1 0, C7_theorem.2.2.2.1 0,
   C7_theorem.2.2.2.2 0 ⟨false, [arrItem5min], []⟩ ⟨false, [], []⟩
     [⟨"Unknown", none, some 300000000, "On Time"⟩]
     [⟨"Unknown", none, some 300000000, "On Time"⟩]
     (by decide) (by decide) _ (by decide)⟩

/-- C8 (confirmed): on a non-error predictions payload whose merge
succeeds, (i) every vehicle present in the output mapping carries the
earliest expected instant among its accepted future predictions (it is
one of them and a lower bound of all of them), (ii) a vehicle absent from
the mapping has no accepted future prediction at all, and (iii) removing
every prediction that the merger silently skips (no vehicle, or a null or
past parsed instant) leaves the output unchanged — such predictions
contribute nothing. -/
theorem C8_theorem (now : Int) (pr : PredPayload) (m : List (String × NSEntry))
    (he : pr.error = false) (hm : _next_stop_by_vehicle now pr = .ok m) :
    (∀ vid e, lookupA m vid = some e →
        QualL (lkOf pr) now pr.data vid e.expected_time ∧
        ∀ t, QualL (lkOf pr) now pr.data vid t → e.expected_time ≤ t) ∧
    (∀ vid, lookupA m vid = none → ∀ t, ¬ QualL (lkOf pr) now pr.data vid t) ∧
    _next_stop_by_vehicle now
        ⟨pr.error, pr.data.filter (nsContributes (lkOf pr) now), pr.included⟩ =
      _next_stop_by_vehicle now pr := by
  have hfold : nsFold (lkOf pr) now pr.data [] = .ok m := by
    rw [_next_stop_by_vehicle, if_neg (by simp [he])] at hm
    exact hm
  refine ⟨?_, ?_, ?_⟩
  · intro vid e hlook
    obtain ⟨h1, h2, _⟩ := (nsFold_inv (lkOf pr) now pr.data [] m hfold vid).1 e hlook
    refine ⟨?_, h2⟩
    rcases h1 with h1 | h1
    · exact Option.noConfusion h1
    · exact h1
  · intro vid hlook t
    exact ((nsFold_inv (lkOf pr) now pr.data [] m hfold vid).2 hlook).2 t
  · rw [_next_stop_by_vehicle, _next_stop_by_vehicle, if_neg (by simp [he]),
      if_neg (by simp [he])]
    exact nsFold_filter (lkOf pr) now pr.data []

/-- C8 witness: a payload with two future predictions for vehicle "v" (at
5 and 12 minutes) and one time-less prediction for vehicle "w". The merged
entry for "v" is at 5 minutes and is least among the accepted instants;
"w", whose only prediction has no resolvable instant, is absent. -/
theorem C8_witness :
    (QualL [] 0 [nsItemA, nsItemB, nsItemNull] "v" 300000000 ∧
      ∀ t, QualL [] 0 [nsItemA, nsItemB, nsItemNull] "v" t → (300000000 : Int) ≤ t) ∧
    (∀ t, ¬ QualL [] 0 [nsItemA, nsItemB, nsItemNull] "w" t) ∧
    _next_stop_by_vehicle 0
        ⟨false, [nsItemA, nsItemB, nsItemNull].filter (nsContributes [] 0), []⟩ =
      _next_stop_by_vehicle 0 ⟨false, [nsItemA, nsItemB, nsItemNull], []⟩ := by
  have h := C8_theorem 0 ⟨false, [nsItemA, nsItemB, nsItemNull], []⟩
    [("v", ⟨"Unknown", 300000000, none⟩)] rfl (by decide)
  exact ⟨h.1 "v" ⟨"Unknown", 300000000, none⟩ (by decide),
    h.2.1 "w" (by decide), h.2.2⟩

/-- C9 counterexample: a shape resource that fails to decode under both
encodings — no polyline string, and a points entry whose latitude is
present but not numeric — is not skipped: `float(...)` raises inside
`_decode_shape_to_lons_lats` and the exception escapes
`parse_route_shapes_merged`, instead of the claimed raise-free skip /
null merged geometry. -/
theorem C9_counterexample :
    _decode_shape_to_lons_lats badShapeItem = .err ∧
    parse_route_shapes_merged ⟨false, [badShapeItem]⟩ = .err := by
  constructor <;> rfl

/-- C9 (corrected): a shape resource whose decode returns nothing (raising
polyline, empty decode, or a points fallback that completes empty)
contributes no segment — deleting it from the payload leaves
`parse_red_line_shape` unchanged — and a payload of only such shapes
yields a null merged geometry without raising; the merged geometry is a
decoded segment with the greatest coordinate count (first such, on ties).
However a points entry with both coordinates present and one of them
non-numeric makes the decode raise (`float` raises, nothing catches it),
so such a shape aborts the whole request rather than being skipped. -/
theorem C9_theorem :
    (∀ (e : Bool) (xs ys : List ShapeItem) (it : ShapeItem),
      _decode_shape_to_lons_lats it = .ok none →
      parse_red_line_shape ⟨e, xs ++ it :: ys⟩ = parse_red_line_shape ⟨e, xs ++ ys⟩) ∧
    (∀ (sp : ShapePayload) (g : List ℚ × List ℚ),
      parse_route_shapes_merged sp = .ok (some g) →
      ∃ shapes, parse_red_line_shape sp = .ok shapes ∧ g ∈ shapes ∧
        ∀ g2 ∈ shapes, g2.1.length ≤ g.1.length) ∧
    (∀ sp : ShapePayload, (∀ it ∈ sp.data, _decode_shape_to_lons_lats it = .ok none) →
      parse_route_shapes_merged sp = .ok none) ∧
    (∀ (p : SPoint) (v : ℚ), p.la = some .notNum → p.lo = some (.num v) →
      ∀ poly, (poly = PolyVal.pnull ∨ poly = PolyVal.pempty) →
        _decode_shape_to_lons_lats ⟨⟨poly, [p]⟩⟩ = .err) := by
  refine ⟨?_, ?_, ?_, ?_⟩
  · intro e xs ys it h
    cases e with
    | true => rfl
    | false =>
      simp only [parse_red_line_shape]
      exact shapeCollect_append_skip h xs ys
  · intro sp g hg
    rw [parse_route_shapes_merged] at hg
    cases hred : parse_red_line_shape sp with
    | err => rw [hred] at hg; exact Res.noConfusion hg
    | ok shapes =>
      rw [hred] at hg
      cases shapes with
      | nil =>
        simp only [Res.bind] at hg
        injection hg with hg
        exact Option.noConfusion hg
      | cons s rest =>
        simp only [Res.bind] at hg
        injection hg with hg
        injection hg with hg
        refine ⟨s :: rest, rfl, ?_, ?_⟩
        · rw [← hg]; exact pymax_mem (fun g => g.1.length) rest s
        · intro g2 hg2
          rw [← hg]
          exact pymax_ge (fun g => g.1.length) rest s g2 hg2
  · intro sp hall
    cases he : sp.error with
    | true =>
      rw [parse_route_shapes_merged, parse_red_line_shape, if_pos (by simp [he])]
      rfl
    | false =>
      rw [parse_route_shapes_merged, parse_red_line_shape, if_neg (by simp [he]),
        shapeCollect_all_none sp.data hall]
      rfl
  · rintro p v hla hlo poly (hp | hp) <;>
      subst hp <;>
      cases p <;>
      simp only [SPoint.mk.injEq] at hla hlo ⊢ <;>
      simp [_decode_shape_to_lons_lats, ptsFold, hla, hlo, pyFloat, Res.bind]

/-- C9 witness: on a payload of a one-point shape, an undecodable shape
and a two-point shape, the merged geometry is the two-point segment, a
member of the decoded list and maximal by point count; deleting the
undecodable shape changes nothing; and a payload of only undecodable
shapes merges to null. -/
theorem C9_witness :
    (∃ shapes, parse_red_line_shape ⟨false, [shapeOnePt, shapeUndec, shapeTwoPt]⟩ =
        .ok shapes ∧ (([2, 4], [1, 3]) : List ℚ × List ℚ) ∈ shapes ∧
        ∀ g2 ∈ shapes, g2.1.length ≤ (([2, 4], [1, 3]) : List ℚ × List ℚ).1.length) ∧
    parse_red_line_shape ⟨false, [shapeUndec, shapeTwoPt]⟩ =
      parse_red_line_shape ⟨false, [shapeTwoPt]⟩ ∧
    parse_route_shapes_merged ⟨false, [shapeUndec]⟩ = .ok none :=
  ⟨C9_theorem.2.1 ⟨false, [shapeOnePt, shapeUndec, shapeTwoPt]⟩ ([2, 4], [1, 3]) (by decide),
   C9_theorem.1 false [] [shapeTwoPt] shapeUndec (by decide),
   C9_theorem.2.2.1 ⟨false, [shapeUndec]⟩ (by decide)⟩

theorem activeCond_iff (now : Int) (st en : Option Int) :
    ((if (match st with
          | none => false
          | some s =>
            (match en with | none => true | some e => decide (now < e)) && decide (now ≥ s))
        then "Active" else "Inactive") : String) = "Active" ↔
      ∃ s, st = some s ∧ now ≥ s ∧ ∀ e, en = some e → now < e := by
  cases st with
  | none => simp
  | some s =>
    cases en with
    | none => by_cases hns : now ≥ s <;> simp [hns]
    | some e =>
      by_cases hne : now < e <;> by_cases hns : now ≥ s <;> simp [hne, hns]

theorem Res.bind_def {α β : Type} (r : Res α) (f : α → Res β) :
    r >>= f = Res.bind r f := rfl

/-- C10 (confirmed): `parse_alerts` computes each row's Status from the
first `active_period` element only: (i) the row is unchanged under any
replacement of the later periods; (ii) when a first period exists, the
Start/End columns are exactly its parsed bounds and the row is `"Active"`
precisely when the parsed start is non-null with `now >= start` and the
end is absent or `now < end` — so an alert whose only covering period is
a later element is reported `"Inactive"`; (iii) with no period the row is
`"Inactive"` with null bounds; and (iv) on a non-error payload row `i` is
the flattening of alert `i`. -/
theorem C10_theorem :
    (∀ (now : Int) (sv : Option Int) (d sh h : Option String)
        (first : APeriod) (rest rest' : List APeriod),
      alertRow now ⟨⟨sv, d, sh, h, first :: rest⟩⟩ =
        alertRow now ⟨⟨sv, d, sh, h, first :: rest'⟩⟩) ∧
    (∀ (now : Int) (it : AlertItem) (first : APeriod) (rest : List APeriod) (row : AlertRow),
      it.attributes.active_period = first :: rest →
      alertRow now it = .ok row →
      _parse_iso first.start = .ok row.start_time ∧
      _parse_iso first.end_ = .ok row.end_time ∧
      (row.status = "Active" ↔ ∃ s, row.start_time = some s ∧ now ≥ s ∧
        ∀ e, row.end_time = some e → now < e)) ∧
    (∀ (now : Int) (it : AlertItem) (row : AlertRow),
      it.attributes.active_period = [] →
      alertRow now it = .ok row →
      row.status = "Inactive" ∧ row.start_time = none ∧ row.end_time = none) ∧
    (∀ (now : Int) (ap : AlertPayload) (rows : List AlertRow),
      ap.error = false → parse_alerts now ap = .ok rows →
      rows.length = ap.data.length ∧
      ∀ i (hi : i < ap.data.length) (hj : i < rows.length),
        alertRow now (ap.data.get ⟨i, hi⟩) = .ok (rows.get ⟨i, hj⟩)) := by
  refine ⟨?_, ?_, ?_, ?_⟩
  · intro now sv d sh h first rest rest'
    rfl
  · intro now it first rest row hper halert
    obtain ⟨⟨sv, d, sh, h, per⟩⟩ := it
    simp only at hper
    subst hper
    simp only [alertRow, Res.bind_def] at halert
    cases hs : _parse_iso first.start with
    | err => rw [hs] at halert; exact Res.noConfusion halert
    | ok sv2 =>
      rw [hs] at halert
      simp only [Res.bind] at halert
      cases hen : _parse_iso first.end_ with
      | err => rw [hen] at halert; exact Res.noConfusion halert
      | ok ev =>
        rw [hen] at halert
        simp only [Res.bind] at halert
        injection halert with halert
        subst halert
        exact ⟨rfl, rfl, activeCond_iff now sv2 ev⟩
  · intro now it row hper halert
    obtain ⟨⟨sv, d, sh, h, per⟩⟩ := it
    simp only at hper
    subst hper
    simp only [alertRow] at halert
    injection halert with halert
    subst halert
    exact ⟨rfl, rfl, rfl⟩
  · intro now ap rows he hrows
    rw [parse_alerts, if_neg (by simp [he])] at hrows
    exact ⟨mapME_ok_length _ hrows, fun i hi hj => mapME_ok_get _ _ _ hrows i hi hj⟩

set_option maxRecDepth 4096 in
/-- C10 witness: at `now` = epoch+1000 s, the alert whose first period has
expired (end epoch+500 s) while its second period covers `now` flattens to
an `"Inactive"` row whose Start/End columns are the first period's bounds;
replacing the second period changes nothing. -/
theorem C10_witness :
    (alertRow 1000000000 alertSecondPeriod =
      alertRow 1000000000 ⟨⟨some 1, some "d", none, none, [⟨.aware 0 0, .aware 500000000 0⟩]⟩⟩) ∧
    (_parse_iso (.aware 0 0) = .ok (some 0) ∧
     _parse_iso (.aware 500000000 0) = .ok (some 500000000) ∧
     (("Inactive" : String) = "Active" ↔ ∃ s, (some (0 : Int)) = some s ∧ (1000000000 : Int) ≥ s ∧
        ∀ e, (some (500000000 : Int)) = some e → (1000000000 : Int) < e)) :=
  ⟨C10_theorem.1 1000000000 (some 1) (some "d") none none
      ⟨.aware 0 0, .aware 500000000 0⟩ [⟨.aware 900000000 0, .aware 2000000000 0⟩] [],
   C10_theorem.2.1 1000000000 alertSecondPeriod ⟨.aware 0 0, .aware 500000000 0⟩
      [⟨.aware 900000000 0, .aware 2000000000 0⟩]
      ⟨"Information", "d", some 0, some 500000000, "Inactive"⟩ rfl rfl⟩
